import Mathlib

/-!
Shallow embedding of the review pipeline of `jj_wk_ws`.

The embedded code lives in `src/pipeline.py` (class `Pipeline`), `src/app.py`
(class `DecisionProcessor`), `src/ai_service.py` and `src/sheets_client.py`.
Sheets are modelled as lists of typed rows (one structure per sheet schema,
all cell values strings, exactly as `get_all_records` / `get_all_values`
deliver them); the DeepSeek completion endpoint is modelled as an oracle
function passed in as a parameter, and the wall clock as a function from the
row position to a timestamp token.  List position `i` corresponds to sheet
row `i + 2` (one header row, 1-based addressing), matching `row_num = idx + 2`
in the source.
-/

namespace JJWS

/-- Marker glyph for machine-generated text, `AI_ICON = '🟨 '` in `config.py`. -/
def AI_ICON : String := "🟨 "

/-- One row of the Review sheet (columns per `REVIEW_COLUMNS` in `config.py`:
Timestamp, 學校, 詞語, 句子, 下週題型, 下週題目, 下週答案, 決策). -/
structure ReviewRow where
  timestamp : String
  school : String
  word : String
  sentence : String
  next_type : String
  next_question : String
  next_answer : String
  decision : String
deriving Repr, DecidableEq

/-- One row of the Standby sheet (id, 學校, 詞語, 題型, 題目, 答案, 狀態, 創建日期). -/
structure StandbyRow where
  id : String
  school : String
  word : String
  qtype : String
  question : String
  answer : String
  state : String
  created : String
deriving Repr, DecidableEq

/-- One row of the intake form sheet (columns per `FORM_COLUMNS` in `config.py`). -/
structure FormRow where
  timestamp : String
  school : String
  words : String
  status : String
deriving Repr, DecidableEq

/-- Python `pat in s` on char lists (and pandas `str.contains` with a literal,
meta-character-free pattern such as `AI_ICON`). -/
def occursIn (pat : List Char) : List Char → Bool
  | [] => pat.isEmpty
  | c :: t => pat.isPrefixOf (c :: t) || occursIn pat t

/-- Substring containment on strings, Python `pat in s`. -/
def strContains (s pat : String) : Bool := occursIn pat.data s.data

/-- Python `str.strip()`: drop leading and trailing whitespace. -/
def pyStrip (s : String) : String :=
  String.mk (((s.data.dropWhile Char.isWhitespace).reverse.dropWhile Char.isWhitespace).reverse)

/-- Python `str(n)` on a non-negative integer: its decimal digit string. -/
def natToDec (n : Nat) : String :=
  if n = 0 then "0" else String.mk (((Nat.digits 10 n).map Nat.digitChar).reverse)

/-! ### Promotion Stage (`Pipeline.move_to_standby`, pipeline.py lines 133-193,
and `DecisionProcessor.move_to_standby`, app.py lines 461-550) -/

/-- Row filter of `Pipeline.move_to_standby` (pipeline.py lines 140-149):
school, word and sentence non-empty, and rows with a requested next-week type
are held back until the next-week question exists.  The 決策 column is not
consulted (config.py marks it 未來使用). -/
def selectPipeline (r : ReviewRow) : Bool :=
  (r.school != "") && (r.word != "") && (r.sentence != "") &&
    (!(r.next_type != "") || (r.next_question != ""))

/-- Row filter of `DecisionProcessor.move_to_standby` (app.py lines 477-497):
required fields non-empty, decision one of the two accepting values, and the
same next-week hold-back rule (`if next_type and not next_question: continue`). -/
def selectApp (r : ReviewRow) : Bool :=
  (r.school != "") && (r.word != "") && (r.sentence != "") &&
    ((r.decision == "即用及保留") || (r.decision == "保留")) &&
    (!((r.next_type != "") && (r.next_question == "")))

/-- Base identifier `f"{school}_{int(datetime.now().timestamp())}_{idx}"`
(pipeline.py line 169; app.py line 499 with a millisecond token). -/
def standbyBase (school : String) (t : Nat) (idx : Nat) : String :=
  school ++ "_" ++ natToDec t ++ "_" ++ natToDec idx

/-- The one or two Standby rows emitted for one selected Review row at
position `idx`: always the base cloze twin (suffix `_f`, 填空題, state Ready),
and the next-week twin (suffix `_o`, state Waiting) only when 下週題目 is
non-empty (pipeline.py lines 161-182; identical fields in app.py 499-524). -/
def standbyRowsOf (ts : Nat → Nat) (today : String) (p : Nat × ReviewRow) : List StandbyRow :=
  let base := standbyBase p.2.school (ts p.1) p.1
  { id := base ++ "_f", school := p.2.school, word := p.2.word, qtype := "填空題",
    question := p.2.sentence, answer := p.2.word, state := "Ready", created := today } ::
  (if p.2.next_question != "" then
    [{ id := base ++ "_o", school := p.2.school, word := p.2.word, qtype := p.2.next_type,
       question := p.2.next_question, answer := p.2.next_answer, state := "Waiting",
       created := today }]
   else [])

/-- Rows selected by `Pipeline.move_to_standby`, with their 0-based positions
(`to_move = review_df[mask]`, keeping the original DataFrame index). -/
def toMovePipeline (review : List ReviewRow) : List (Nat × ReviewRow) :=
  review.enum.filter (fun p => selectPipeline p.2)

/-- Rows selected by `DecisionProcessor.move_to_standby`. -/
def toMoveApp (review : List ReviewRow) : List (Nat × ReviewRow) :=
  review.enum.filter (fun p => selectApp p.2)

/-- All Standby rows appended in one `Pipeline.move_to_standby` run
(`standby_rows`, built row by row in DataFrame order). -/
def standbyRowsPipeline (ts : Nat → Nat) (today : String) (review : List ReviewRow) :
    List StandbyRow :=
  (toMovePipeline review).flatMap (standbyRowsOf ts today)

/-- All Standby rows appended in one `DecisionProcessor.move_to_standby` run. -/
def standbyRowsApp (ts : Nat → Nat) (today : String) (review : List ReviewRow) :
    List StandbyRow :=
  (toMoveApp review).flatMap (standbyRowsOf ts today)

/-- Sheet row numbers passed to `clear_rows`, in the order the source loop
issues them (`rows_to_clear.append(idx + 2)` inside the ascending scan,
then `for row_num in rows_to_clear: clear_rows(...)`). -/
def rowsToClearPipeline (review : List ReviewRow) : List Nat :=
  (toMovePipeline review).map (fun p => p.1 + 2)

/-- The all-blank Review row left behind by clearing a row's cells. -/
def blankRow : ReviewRow := ⟨"", "", "", "", "", "", "", ""⟩

/-- One `SheetsClient.clear_rows(sheet, row_num, row_num)` call
(sheets_client.py lines 68-73): `batch_clear(["A{r}:Z{r}"])` blanks the cells
of sheet row `r` in place — the row is not deleted, later rows do not shift.
The Review sheet has 8 columns, all inside A..Z, so the whole row goes blank. -/
def clear_rows (t : List ReviewRow) (rowNum : Nat) : List ReviewRow :=
  t.set (rowNum - 2) blankRow

/-- The Review sheet after the clearing loop of `Pipeline.move_to_standby`
(pipeline.py lines 189-191). -/
def reviewAfterPipeline (review : List ReviewRow) : List ReviewRow :=
  (rowsToClearPipeline review).foldl clear_rows review

/-! ### Question-Generation Stage (`Pipeline.generate_questions`,
pipeline.py lines 86-131, with `generate_question_by_ai`, ai_service.py 22-35) -/

/-- Row filter of `Pipeline.generate_questions` (pipeline.py lines 93-97):
a next-week type is set, the next-week question is still empty, and the
sentence does not contain the AI marker. -/
def selectGen (r : ReviewRow) : Bool :=
  (r.next_type != "") && (r.next_question == "") && (!(strContains r.sentence AI_ICON))

/-- Write-back for one successful generation (pipeline.py lines 125-126):
`AI_ICON + result['question']` into 下週題目 and `result['answer']` into 下週答案. -/
def fillRow (r : ReviewRow) (qa : String × String) : ReviewRow :=
  { r with next_question := AI_ICON ++ qa.1, next_answer := qa.2 }

/-- Observable outcome of one `generate_questions` run: the table after all
write-backs, the single count shown by the final `st.success` message
(`processed`, incremented for every iterated row whether or not its AI call
succeeded), and the positions for which `generate_question_by_ai` reported an
error (`st.error` inside ai_service.py, returning `None`). -/
structure GenResult where
  table : List ReviewRow
  reported : Nat
  failures : List Nat
deriving Repr, DecidableEq

/-- One run of `Pipeline.generate_questions`.  The completion call plus JSON
parse is the oracle: `some (q, a)` for a successful, parseable reply at that
row, `none` when the call raised or the reply failed to parse. -/
def generate_questions (oracle : Nat → ReviewRow → Option (String × String))
    (table : List ReviewRow) : GenResult :=
  { table := table.enum.map (fun p =>
      if selectGen p.2 then
        match oracle p.1 p.2 with
        | some qa => fillRow p.2 qa
        | none => p.2
      else p.2)
  , reported := (table.enum.filter (fun p => selectGen p.2)).length
  , failures := ((table.enum.filter (fun p => selectGen p.2 && (oracle p.1 p.2).isNone)).map
      Prod.fst) }

/-- Pandas `notna` on a cell of the Review frame.  `GoogleSheetsManager.
get_sheet_data` builds the frame from `get_all_values`, so every cell is a
string and `notna` is identically true — an empty cell is the empty string,
not NaN. -/
def notna (_ : String) : Bool := true

/-- Pandas `isna` on a cell of the same all-strings frame: identically false. -/
def isna (_ : String) : Bool := false

/-- Row filter of `DecisionProcessor.generate_next_week_questions`
(app.py lines 406-412): the three `notna` conjuncts are vacuous on the
string-typed frame, so the mask reduces to 下週題目 empty and 句子 free of the
AI marker — an empty 下週題型 does not prevent selection. -/
def selectGenApp (r : ReviewRow) : Bool :=
  notna r.word && notna r.sentence && notna r.next_type &&
    (isna r.next_question || (r.next_question == "")) &&
    (!(strContains r.sentence AI_ICON))

/-- The write-back target of app.py lines 437-440: the first position in the
snapshot whose 詞語 equals the processed row's word
(`review_df.index[review_df["詞語"] == row["詞語"]].tolist()`, then
`original_idx[0]`). -/
def firstWordMatch (snapshot : List ReviewRow) (w : String) : Option Nat :=
  ((snapshot.enum.filter (fun p => p.2.word == w)).map Prod.fst).head?

/-- One iteration of the app.py generation loop (lines 426-446): when the
completion result is truthy, write the marker-tagged question into column F
and the answer into column G of the first word-matched row of the snapshot;
a falsy result or no word match writes nothing. -/
def appWriteStep (snapshot : List ReviewRow) (oracleApp : ReviewRow → Option (String × String))
    (sheet : List ReviewRow) (r : ReviewRow) : List ReviewRow :=
  match oracleApp r with
  | some qa =>
    match firstWordMatch snapshot r.word with
    | some i =>
      match sheet[i]? with
      | some cur => sheet.set i (fillRow cur qa)
      | none => sheet
    | none => sheet
  | none => sheet

/-- One run of `DecisionProcessor.generate_next_week_questions` (app.py lines
395-459): the mask is evaluated on the snapshot read once at the start, and
each selected row triggers one write-back into the evolving sheet at the
first word-matched position of that snapshot. -/
def generate_next_week_questions (oracleApp : ReviewRow → Option (String × String))
    (snapshot : List ReviewRow) : List ReviewRow :=
  (snapshot.filter selectGenApp).foldl (appWriteStep snapshot oracleApp) snapshot

/-! ### Import Stage (`Pipeline.import_new_words`, pipeline.py lines 17-84,
with `generate_sentence_by_ai`, ai_service.py lines 11-19) -/

/-- Delimiter class of `re.split(r'[,，\s、]+', raw_words)` (pipeline.py line 44). -/
def isDelim (c : Char) : Bool := c == ',' || c == '，' || c == '、' || c.isWhitespace

/-- Word extraction from the raw 請輸入詞語 field: split on delimiter runs,
strip, drop empties (pipeline.py lines 44-49). -/
def splitWords (raw : String) : List String :=
  ((raw.data.splitOnP isDelim).map (fun l => pyStrip (String.mk l))).filter (fun w => w != "")

/-- Lookup in `tm_dict = dict(zip(tm_df[word], tm_df[sentence]))` (pipeline.py
line 26): for duplicate words the later reference row wins, as in a Python dict. -/
def tmLookup (tm : List (String × String)) (w : String) : Option String :=
  (tm.reverse.find? (fun p => p.1 == w)).map Prod.snd

/-- Embedding of `generate_sentence_by_ai` (ai_service.py lines 11-19): on a
successful completion the stripped reply gets the marker prepended; a raised
exception yields the marker-tagged error text instead. -/
def generate_sentence_by_ai (oracle : String → Except String String) (word : String) : String :=
  match oracle word with
  | .ok resp => AI_ICON ++ pyStrip resp
  | .error e => AI_ICON ++ "AI Error: " ++ e

/-- Sentence resolution for one word (pipeline.py lines 52-55): reference
table hit wins, otherwise synthesize. -/
def sentenceFor (tm : List (String × String)) (oracle : String → Except String String)
    (w : String) : String :=
  match tmLookup tm w with
  | some s => s
  | none => generate_sentence_by_ai oracle w

/-- The Review row appended for one imported word (pipeline.py lines 57-59):
seven cells `[timestamp, school, word, sentence, '', '', '']`, so the 決策
column reads back empty. -/
def reviewRowFor (timestamp school word sentence : String) : ReviewRow :=
  ⟨timestamp, school, word, sentence, "", "", "", ""⟩

/-- Review rows contributed by one pending Submission. -/
def rowsForForm (tm : List (String × String)) (oracle : String → Except String String)
    (f : FormRow) : List ReviewRow :=
  (splitWords f.words).map (fun w => reviewRowFor f.timestamp f.school w (sentenceFor tm oracle w))

/-- The words of one pending Submission whose sentence lookup misses, i.e.
exactly those for which `generate_sentence_by_ai` is invoked. -/
def aiCallsForForm (tm : List (String × String)) (f : FormRow) : List String :=
  (splitWords f.words).filter (fun w => (tmLookup tm w).isNone)

/-- Pending Submissions with their positions
(`pending = form_df[form_df[status] != STATUS['done']]`, pipeline.py line 29). -/
def pendingForms (forms : List FormRow) : List (Nat × FormRow) :=
  forms.enum.filter (fun p => p.2.status != "Done")

/-- One mutating Spreadsheet Gateway call issued by the Import Stage. -/
inductive GatewayOp where
  | appendReview (rows : List ReviewRow)
  | markDone (rowNum : Nat)
deriving Repr, DecidableEq

/-- Observable outcome of one `import_new_words` run: the Review rows built,
the words sent to the completion service, and the ordered sequence of
mutating gateway calls. -/
structure ImportResult where
  newRows : List ReviewRow
  aiCalls : List String
  trace : List GatewayOp
deriving Repr, DecidableEq

/-- One run of `Pipeline.import_new_words` (pipeline.py lines 17-84): build the
rows for every pending Submission, and — only when at least one row came out —
append them to Review and then flip each pending Submission's 狀態 to Done
(`row_num = idx + 2`, pipeline.py lines 63-80). -/
def importNewWords (tm : List (String × String)) (oracle : String → Except String String)
    (forms : List FormRow) : ImportResult :=
  let pend := pendingForms forms
  let newRows := pend.flatMap (fun p => rowsForForm tm oracle p.2)
  { newRows := newRows
  , aiCalls := pend.flatMap (fun p => aiCallsForForm tm p.2)
  , trace :=
      if newRows.isEmpty then []
      else GatewayOp.appendReview newRows :: pend.map (fun p => GatewayOp.markDone (p.1 + 2)) }

/-! ### Generic helper lemmas -/

theorem stringExt {a b : String} (h : a.data = b.data) : a = b := String.ext h

theorem occursIn_append_left {pat t : List Char} (s : List Char)
    (h : occursIn pat t = true) : occursIn pat (s ++ t) = true := by
  induction s with
  | nil => simpa using h
  | cons c s ih => simp [occursIn, ih]

theorem sep_inj : ∀ (l₁ : List Char) {l₂ t₁ t₂ : List Char}, '_' ∉ t₁ → '_' ∉ t₂ →
    l₁ ++ '_' :: t₁ = l₂ ++ '_' :: t₂ → l₁ = l₂ ∧ t₁ = t₂ := by
  intro l₁
  induction l₁ with
  | nil =>
    intro l₂ t₁ t₂ h₁ h₂ h
    cases l₂ with
    | nil => simpa using h
    | cons c l₂ =>
      rw [List.nil_append, List.cons_append] at h
      injection h with hc ht
      exfalso
      exact h₁ (by rw [ht]; simp)
  | cons a l₁ ih =>
    intro l₂ t₁ t₂ h₁ h₂ h
    cases l₂ with
    | nil =>
      rw [List.cons_append, List.nil_append] at h
      injection h with hc ht
      exfalso
      exact h₂ (by rw [← ht]; simp)
    | cons b l₂ =>
      rw [List.cons_append, List.cons_append] at h
      injection h with hc ht
      obtain ⟨e₁, e₂⟩ := ih h₁ h₂ ht
      exact ⟨by rw [hc, e₁], e₂⟩

theorem digitChar_lt10_ne_underscore : ∀ d < 10, Nat.digitChar d ≠ '_' := by decide

theorem digitChar_lt10_inj : ∀ d₁ < 10, ∀ d₂ < 10,
    Nat.digitChar d₁ = Nat.digitChar d₂ → d₁ = d₂ := by decide

theorem map_digitChar_inj : ∀ (l₁ l₂ : List Nat), (∀ d ∈ l₁, d < 10) → (∀ d ∈ l₂, d < 10) →
    l₁.map Nat.digitChar = l₂.map Nat.digitChar → l₁ = l₂ := by
  intro l₁
  induction l₁ with
  | nil =>
    intro l₂ _ _ h
    cases l₂ with
    | nil => rfl
    | cons b l₂ => simp at h
  | cons a l₁ ih =>
    intro l₂ hb₁ hb₂ h
    cases l₂ with
    | nil => simp at h
    | cons b l₂ =>
      simp only [List.map_cons, List.cons.injEq] at h
      have ha : a = b := digitChar_lt10_inj a (hb₁ a (by simp)) b (hb₂ b (by simp)) h.1
      have : l₁ = l₂ := ih l₂ (fun d hd => hb₁ d (by simp [hd])) (fun d hd => hb₂ d (by simp [hd])) h.2
      rw [ha, this]

theorem natToDec_data (n : Nat) :
    (natToDec n).data = if n = 0 then ['0'] else ((Nat.digits 10 n).map Nat.digitChar).reverse := by
  unfold natToDec
  split <;> rfl

theorem natToDec_no_underscore (n : Nat) : '_' ∉ (natToDec n).data := by
  rw [natToDec_data]
  split
  · decide
  · intro hmem
    simp only [List.mem_reverse, List.mem_map] at hmem
    obtain ⟨d, hd, he⟩ := hmem
    exact digitChar_lt10_ne_underscore d (Nat.digits_lt_base (by norm_num) hd) he

theorem natToDec_inj {m n : Nat} (h : natToDec m = natToDec n) : m = n := by
  have hd := congrArg String.data h
  rw [natToDec_data, natToDec_data] at hd
  by_cases hm : m = 0 <;> by_cases hn : n = 0
  · rw [hm, hn]
  · exfalso
    rw [if_pos hm, if_neg hn] at hd
    have hrev : (Nat.digits 10 n).map Nat.digitChar = ['0'] := by
      rw [← List.reverse_reverse ((Nat.digits 10 n).map Nat.digitChar), ← hd]
      rfl
    rcases hds : Nat.digits 10 n with _ | ⟨d, ds⟩
    · rw [hds] at hrev; simp at hrev
    · rw [hds] at hrev
      simp only [List.map_cons, List.cons.injEq, List.map_eq_nil_iff] at hrev
      have hd10 : d < 10 := Nat.digits_lt_base (by norm_num) (by rw [hds]; simp)
      have hd0 : d = 0 := digitChar_lt10_inj d hd10 0 (by norm_num) (by rw [hrev.1]; rfl)
      have hn0 : n = Nat.ofDigits 10 (Nat.digits 10 n) := (Nat.ofDigits_digits 10 n).symm
      rw [hds, hrev.2, hd0] at hn0
      simp [Nat.ofDigits] at hn0
      exact hn hn0
  · exfalso
    rw [if_neg hm, if_pos hn] at hd
    have hrev : (Nat.digits 10 m).map Nat.digitChar = ['0'] := by
      rw [← List.reverse_reverse ((Nat.digits 10 m).map Nat.digitChar), hd]
      rfl
    rcases hds : Nat.digits 10 m with _ | ⟨d, ds⟩
    · rw [hds] at hrev; simp at hrev
    · rw [hds] at hrev
      simp only [List.map_cons, List.cons.injEq, List.map_eq_nil_iff] at hrev
      have hd10 : d < 10 := Nat.digits_lt_base (by norm_num) (by rw [hds]; simp)
      have hd0 : d = 0 := digitChar_lt10_inj d hd10 0 (by norm_num) (by rw [hrev.1]; rfl)
      have hm0 : m = Nat.ofDigits 10 (Nat.digits 10 m) := (Nat.ofDigits_digits 10 m).symm
      rw [hds, hrev.2, hd0] at hm0
      simp [Nat.ofDigits] at hm0
      exact hm hm0
  · rw [if_neg hm, if_neg hn] at hd
    have := List.reverse_injective hd
    have hdig := map_digitChar_inj (Nat.digits 10 m) (Nat.digits 10 n)
      (fun d hd => Nat.digits_lt_base (by norm_num) hd)
      (fun d hd => Nat.digits_lt_base (by norm_num) hd) this
    exact Nat.digits_inj_iff.mp hdig

theorem pairwise_fst_lt_enumFrom {α : Type} : ∀ (l : List α) (n : Nat),
    (l.enumFrom n).Pairwise (fun a b => a.1 < b.1) := by
  intro l
  induction l with
  | nil => intro n; exact List.Pairwise.nil
  | cons a l ih =>
    intro n
    refine List.pairwise_cons.mpr ⟨?_, ih (n + 1)⟩
    intro p hp
    have := List.le_fst_of_mem_enumFrom hp
    omega

theorem pairwise_fst_lt_enum {α : Type} (l : List α) :
    l.enum.Pairwise (fun a b => a.1 < b.1) :=
  pairwise_fst_lt_enumFrom l 0

theorem filter_enumFrom_length {α : Type} (q : α → Bool) : ∀ (l : List α) (n : Nat),
    ((l.enumFrom n).filter (fun p => q p.2)).length = (l.filter q).length := by
  intro l
  induction l with
  | nil => intro n; rfl
  | cons a l ih =>
    intro n
    show (List.filter _ ((n, a) :: l.enumFrom (n + 1))).length = _
    rw [List.filter_cons, List.filter_cons]
    cases hqa : q a <;> simp [hqa, ih]

theorem filter_enum_length {α : Type} (q : α → Bool) (l : List α) :
    (l.enum.filter (fun p => q p.2)).length = (l.filter q).length :=
  filter_enumFrom_length q l 0

/-! ### Distinctness of the generated Standby identifiers -/

theorem data_underscore : ("_" : String).data = ['_'] := rfl

theorem standbyBase_inj {s₁ s₂ : String} {t₁ t₂ i₁ i₂ : Nat}
    (h : standbyBase s₁ t₁ i₁ = standbyBase s₂ t₂ i₂) : s₁ = s₂ ∧ t₁ = t₂ ∧ i₁ = i₂ := by
  have hd := congrArg String.data h
  simp only [standbyBase, String.data_append, data_underscore] at hd
  have hd' : (s₁.data ++ '_' :: (natToDec t₁).data) ++ '_' :: (natToDec i₁).data =
      (s₂.data ++ '_' :: (natToDec t₂).data) ++ '_' :: (natToDec i₂).data := by
    simpa [List.append_assoc] using hd
  obtain ⟨h₁, hI⟩ := sep_inj _ (natToDec_no_underscore i₁) (natToDec_no_underscore i₂) hd'
  obtain ⟨hS, hT⟩ := sep_inj _ (natToDec_no_underscore t₁) (natToDec_no_underscore t₂) h₁
  exact ⟨stringExt hS, natToDec_inj (stringExt hT), natToDec_inj (stringExt hI)⟩

theorem id_append_inj {b₁ b₂ : String} {c₁ c₂ : Char} (hc₁ : c₁ ≠ '_') (hc₂ : c₂ ≠ '_')
    (h : b₁ ++ String.mk ['_', c₁] = b₂ ++ String.mk ['_', c₂]) : b₁ = b₂ ∧ c₁ = c₂ := by
  have hd := congrArg String.data h
  rw [String.data_append, String.data_append] at hd
  have hd' : b₁.data ++ '_' :: [c₁] = b₂.data ++ '_' :: [c₂] := hd
  obtain ⟨hb, hc⟩ := sep_inj _ (fun hm => hc₁ ((List.mem_singleton.mp hm).symm))
    (fun hm => hc₂ ((List.mem_singleton.mp hm).symm)) hd'
  refine ⟨stringExt hb, ?_⟩
  injection hc

theorem ids_standbyRowsOf (ts : Nat → Nat) (today : String) (p : Nat × ReviewRow) :
    (standbyRowsOf ts today p).map StandbyRow.id =
      (standbyBase p.2.school (ts p.1) p.1 ++ "_f") ::
        (if p.2.next_question != "" then [standbyBase p.2.school (ts p.1) p.1 ++ "_o"]
         else []) := by
  simp only [standbyRowsOf]
  split <;> rfl

theorem mem_ids_standbyRowsOf {ts : Nat → Nat} {today : String} {p : Nat × ReviewRow} {x : String}
    (hx : x ∈ (standbyRowsOf ts today p).map StandbyRow.id) :
    x = standbyBase p.2.school (ts p.1) p.1 ++ "_f" ∨
      x = standbyBase p.2.school (ts p.1) p.1 ++ "_o" := by
  rw [ids_standbyRowsOf] at hx
  rcases List.mem_cons.mp hx with h | h
  · exact Or.inl h
  · split at h
    · exact Or.inr (List.mem_singleton.mp h)
    · cases h

theorem nodup_ids_standbyRowsOf (ts : Nat → Nat) (today : String) (p : Nat × ReviewRow) :
    ((standbyRowsOf ts today p).map StandbyRow.id).Nodup := by
  rw [ids_standbyRowsOf]
  split
  · refine List.nodup_cons.mpr ⟨?_, List.nodup_singleton _⟩
    intro hmem
    obtain ⟨_, hc⟩ := @id_append_inj _ _ 'f' 'o' (by decide) (by decide)
      (List.mem_singleton.mp hmem)
    exact absurd hc (by decide)
  · simp

theorem ids_disjoint_of_ne_fst (ts : Nat → Nat) (today : String) {p q : Nat × ReviewRow}
    (hne : p.1 ≠ q.1) :
    List.Disjoint ((standbyRowsOf ts today p).map StandbyRow.id)
      ((standbyRowsOf ts today q).map StandbyRow.id) := by
  intro x hxp hxq
  have h₁ := mem_ids_standbyRowsOf hxp
  have h₂ := mem_ids_standbyRowsOf hxq
  apply hne
  rcases h₁ with h₁ | h₁ <;> rcases h₂ with h₂ | h₂ <;>
    · rw [h₁] at h₂
      obtain ⟨hb, _⟩ := id_append_inj (by decide) (by decide) h₂
      exact (standbyBase_inj hb).2.2

theorem nodup_ids_flatMap (ts : Nat → Nat) (today : String) {pairs : List (Nat × ReviewRow)}
    (hp : pairs.Pairwise (fun a b => a.1 ≠ b.1)) :
    ((pairs.flatMap (standbyRowsOf ts today)).map StandbyRow.id).Nodup := by
  rw [List.map_flatMap, List.nodup_flatMap]
  exact ⟨fun p _ => nodup_ids_standbyRowsOf ts today p,
    hp.imp (fun hne => ids_disjoint_of_ne_fst ts today hne)⟩

theorem toMovePipeline_pairwise (review : List ReviewRow) :
    (toMovePipeline review).Pairwise (fun a b => a.1 ≠ b.1) :=
  ((pairwise_fst_lt_enum review).filter _).imp (fun h => Nat.ne_of_lt h)

theorem toMoveApp_pairwise (review : List ReviewRow) :
    (toMoveApp review).Pairwise (fun a b => a.1 ≠ b.1) :=
  ((pairwise_fst_lt_enum review).filter _).imp (fun h => Nat.ne_of_lt h)

/-- C9: within one Promotion Stage run the ids of all appended StandbyItems are
pairwise distinct — the base identifier separates school, timestamp token and
row index with underscores whose trailing components are digit strings, so
distinct row indices force distinct bases whatever the school strings or
timestamp tokens are, and the two twins of one row carry the distinct suffixes
"_f" and "_o".  This holds for both `Pipeline.move_to_standby` and
`DecisionProcessor.move_to_standby`. -/
theorem standby_ids_distinct (ts : Nat → Nat) (today : String) (review : List ReviewRow) :
    ((standbyRowsPipeline ts today review).map StandbyRow.id).Nodup ∧
    ((standbyRowsApp ts today review).map StandbyRow.id).Nodup :=
  ⟨nodup_ids_flatMap ts today (toMovePipeline_pairwise review),
   nodup_ids_flatMap ts today (toMoveApp_pairwise review)⟩

/-! ### Promotion eligibility (claim C1) -/

/-- C1 counterexample: `Pipeline.move_to_standby` promotes a row whose 決策
cell is empty — not one of the two accepting values — because its filter
(pipeline.py lines 140-149) never consults the decision column.  The row below
has non-empty school, word and sentence, an empty decision, and is selected
and promoted. -/
theorem promotion_decision_not_checked_cex :
    selectPipeline ⟨"t", "A", "w", "s", "", "", "", ""⟩ = true ∧
    (⟨"t", "A", "w", "s", "", "", "", ""⟩ : ReviewRow).decision ≠ "即用及保留" ∧
    (⟨"t", "A", "w", "s", "", "", "", ""⟩ : ReviewRow).decision ≠ "保留" ∧
    toMovePipeline [⟨"t", "A", "w", "s", "", "", "", ""⟩] =
      [(0, ⟨"t", "A", "w", "s", "", "", "", ""⟩)] ∧
    (standbyRowsPipeline (fun _ => 0) "d" [⟨"t", "A", "w", "s", "", "", "", ""⟩]).length = 1 := by
  refine ⟨by decide, by decide, by decide, by decide, rfl⟩

/-- C1 amended: `DecisionProcessor.move_to_standby` (app.py) promotes a row
exactly when school, word and sentence are non-empty, the decision is one of
the two accepting values 即用及保留 / 保留, and a requested next-week type
already has its question; `Pipeline.move_to_standby` (pipeline.py) uses the
same conditions except that it never consults the decision column. -/
theorem promotion_eligibility_characterization (r : ReviewRow) :
    (selectApp r = true ↔
      r.school ≠ "" ∧ r.word ≠ "" ∧ r.sentence ≠ "" ∧
        (r.decision = "即用及保留" ∨ r.decision = "保留") ∧
        (r.next_type ≠ "" → r.next_question ≠ "")) ∧
    (selectPipeline r = true ↔
      r.school ≠ "" ∧ r.word ≠ "" ∧ r.sentence ≠ "" ∧
        (r.next_type ≠ "" → r.next_question ≠ "")) := by
  constructor
  · unfold selectApp
    simp only [Bool.and_eq_true, Bool.or_eq_true, Bool.not_eq_true', Bool.and_eq_false_iff,
      bne_iff_ne, beq_iff_eq, bne_eq_false_iff_eq, beq_eq_false_iff_ne, and_assoc]
    constructor
    · rintro ⟨h1, h2, h3, h4, h5⟩
      refine ⟨h1, h2, h3, h4, ?_⟩
      intro ht
      rcases h5 with h5 | h5
      · exact absurd h5 ht
      · exact h5
    · rintro ⟨h1, h2, h3, h4, h5⟩
      refine ⟨h1, h2, h3, h4, ?_⟩
      by_cases ht : r.next_type = ""
      · exact Or.inl ht
      · exact Or.inr (h5 ht)
  · unfold selectPipeline
    simp only [Bool.and_eq_true, Bool.or_eq_true, Bool.not_eq_true', bne_iff_ne, beq_iff_eq,
      bne_eq_false_iff_eq, and_assoc]
    constructor
    · rintro ⟨h1, h2, h3, h4⟩
      refine ⟨h1, h2, h3, ?_⟩
      intro ht
      rcases h4 with h4 | h4
      · exact absurd h4 ht
      · exact h4
    · rintro ⟨h1, h2, h3, h4⟩
      refine ⟨h1, h2, h3, ?_⟩
      by_cases ht : r.next_type = ""
      · exact Or.inl ht
      · exact Or.inr (h4 ht)

/-! ### Clearing order (claim C6) -/

/-- C6 counterexample: with two eligible Review rows the source loop issues
the `clear_rows` calls for sheet rows 2 and 3 in that order — ascending,
not descending, row-index order. -/
theorem clear_order_not_descending_cex :
    rowsToClearPipeline
        [⟨"t", "A", "w", "s", "", "", "", ""⟩, ⟨"t", "B", "x", "y", "", "", "", ""⟩] = [2, 3] ∧
    ¬ (rowsToClearPipeline
        [⟨"t", "A", "w", "s", "", "", "", ""⟩, ⟨"t", "B", "x", "y", "", "", "", ""⟩]).Pairwise
      (fun a b => b < a) := by
  refine ⟨by decide, ?_⟩
  intro h
  rw [(by decide : rowsToClearPipeline
      [⟨"t", "A", "w", "s", "", "", "", ""⟩, ⟨"t", "B", "x", "y", "", "", "", ""⟩] = [2, 3])] at h
  have := List.pairwise_cons.mp h
  have h23 := this.1 3 (by simp)
  omega

/-- C6 amended: the `clear_rows` calls of one `Pipeline.move_to_standby` run
target strictly ascending sheet row numbers (the scan order of the DataFrame);
since `clear_rows` blanks cells in place and deletes no row, indices do not
drift and this ordering is harmless. -/
theorem clear_order_ascending (review : List ReviewRow) :
    (rowsToClearPipeline review).Pairwise (fun a b => a < b) := by
  unfold rowsToClearPipeline
  rw [List.pairwise_map]
  exact ((pairwise_fst_lt_enum review).filter _).imp (fun h => by omega)

/-! ### Promotion emission shape (claim C2) -/

/-- C2: for every Review row the Promotion Stage processes, the emitted batch
for that row is one base cloze item — id suffix "_f", type 填空題, question
the stored sentence, answer the word, state Ready — followed by at most one
variant item, and the variant (suffix "_o", state Waiting) is present exactly
when 下週題目 is non-empty; the processed row necessarily has school, word and
sentence non-empty, and everything emitted for it lands in the run's output. -/
theorem promotion_emission (ts : Nat → Nat) (today : String) (review : List ReviewRow)
    (idx : Nat) (r : ReviewRow) (h : (idx, r) ∈ toMovePipeline review) :
    r.school ≠ "" ∧ r.word ≠ "" ∧ r.sentence ≠ "" ∧
    (∀ x ∈ standbyRowsOf ts today (idx, r), x ∈ standbyRowsPipeline ts today review) ∧
    ∃ a rest, standbyRowsOf ts today (idx, r) = a :: rest ∧
      a.id = standbyBase r.school (ts idx) idx ++ "_f" ∧ a.qtype = "填空題" ∧
      a.question = r.sentence ∧ a.answer = r.word ∧ a.state = "Ready" ∧ a.created = today ∧
      rest.length ≤ 1 ∧ (rest = [] ↔ r.next_question = "") ∧
      ∀ b ∈ rest, b.id = standbyBase r.school (ts idx) idx ++ "_o" ∧ b.qtype = r.next_type ∧
        b.question = r.next_question ∧ b.answer = r.next_answer ∧ b.state = "Waiting" := by
  have hsel : selectPipeline r = true := by
    have := List.mem_filter.mp h
    exact this.2
  have hfields := ((promotion_eligibility_characterization r).2.mp hsel)
  refine ⟨hfields.1, hfields.2.1, hfields.2.2.1, ?_, ?_⟩
  · intro x hx
    exact List.mem_flatMap.mpr ⟨(idx, r), h, hx⟩
  · refine ⟨⟨standbyBase r.school (ts idx) idx ++ "_f", r.school, r.word, "填空題",
      r.sentence, r.word, "Ready", today⟩,
      (if r.next_question != "" then
        [⟨standbyBase r.school (ts idx) idx ++ "_o", r.school, r.word, r.next_type,
          r.next_question, r.next_answer, "Waiting", today⟩]
       else []),
      rfl, rfl, rfl, rfl, rfl, rfl, rfl, ?_, ?_, ?_⟩
    · cases hq : (r.next_question != "") <;> simp [hq]
    · cases hq : (r.next_question != "")
      · simp [hq, bne_eq_false_iff_eq.mp hq]
      · simp [hq, bne_iff_ne.mp hq]
    · intro b hb
      split at hb
      · rw [List.mem_singleton.mp hb]
        exact ⟨rfl, rfl, rfl, rfl, rfl⟩
      · cases hb

/-! ### Question-Generation Stage (claims C3 and C7) -/

theorem generate_questions_table_getElem (oracle : Nat → ReviewRow → Option (String × String))
    (table : List ReviewRow) (j : Nat) :
    (generate_questions oracle table).table[j]? =
      (table[j]?).map (fun r =>
        if selectGen r then
          match oracle j r with
          | some qa => fillRow r qa
          | none => r
        else r) := by
  show (table.enum.map (fun p =>
      if selectGen p.2 then
        match oracle p.1 p.2 with
        | some qa => fillRow p.2 qa
        | none => p.2
      else p.2))[j]? = _
  rw [List.getElem?_map, List.getElem?_enum, Option.map_map]
  rfl

theorem ai_append_ne_empty (x : String) : AI_ICON ++ x ≠ "" := by
  intro hemp
  have hd := congrArg String.data hemp
  rw [String.data_append] at hd
  have he : AI_ICON.data = '🟨' :: [' '] := rfl
  rw [he] at hd
  simp at hd

/-- Skip and no-op behaviour of `Pipeline.generate_questions` (pipeline.py):
a row whose sentence contains the AI marker, or whose 下週題目 is already
non-empty, or whose 下週題型 is empty, is not selected and is written back
unchanged; and a row the stage just filled successfully is untouched by any
second run with any oracle, because the fresh 下週題目 is marker-tagged and
non-empty. -/
theorem question_gen_skip_and_idempotent (table : List ReviewRow)
    (oracle oracle2 : Nat → ReviewRow → Option (String × String)) (i : Nat) (r : ReviewRow)
    (hr : table[i]? = some r) :
    (strContains r.sentence AI_ICON = true ∨ r.next_question ≠ "" ∨ r.next_type = "" →
      (generate_questions oracle table).table[i]? = some r) ∧
    (∀ qa, selectGen r = true → oracle i r = some qa →
      (generate_questions oracle table).table[i]? = some (fillRow r qa) ∧
      (generate_questions oracle2 (generate_questions oracle table).table).table[i]? =
        some (fillRow r qa)) := by
  constructor
  · intro hskip
    have hsel : selectGen r = false := by
      cases hsel : selectGen r
      · rfl
      · exfalso
        unfold selectGen at hsel
        simp only [Bool.and_eq_true, bne_iff_ne, beq_iff_eq, Bool.not_eq_true'] at hsel
        rcases hskip with hs | hs | hs
        · rw [hsel.2] at hs
          cases hs
        · exact hs hsel.1.2
        · exact hsel.1.1 hs
    rw [generate_questions_table_getElem, hr]
    simp [hsel]
  · intro qa hsel ho
    have h1 : (generate_questions oracle table).table[i]? = some (fillRow r qa) := by
      rw [generate_questions_table_getElem, hr]
      simp [hsel, ho]
    refine ⟨h1, ?_⟩
    have hsel2 : selectGen (fillRow r qa) = false := by
      have hne := ai_append_ne_empty qa.1
      simp [selectGen, fillRow, beq_eq_false_iff_ne.mpr hne]
    rw [generate_questions_table_getElem, h1]
    simp [hsel2]

theorem appWriteStep_getElem_ne (snapshot : List ReviewRow)
    (oracleApp : ReviewRow → Option (String × String)) (sheet : List ReviewRow)
    (a : ReviewRow) (j : Nat) (hno : firstWordMatch snapshot a.word ≠ some j) :
    (appWriteStep snapshot oracleApp sheet a)[j]? = sheet[j]? := by
  unfold appWriteStep
  cases ho : oracleApp a with
  | none => rfl
  | some qa =>
    cases hfm : firstWordMatch snapshot a.word with
    | none => rfl
    | some i =>
      cases hc : sheet[i]? with
      | none => simp only [hc]
      | some cur =>
        simp only [hc]
        have hij : i ≠ j := fun he => hno (by rw [hfm, he])
        exact List.getElem?_set_ne hij

theorem app_fold_untouched (snapshot : List ReviewRow)
    (oracleApp : ReviewRow → Option (String × String)) :
    ∀ (sel sheet : List ReviewRow) (j : Nat),
      (∀ p ∈ sel, firstWordMatch snapshot p.word ≠ some j) →
      (sel.foldl (appWriteStep snapshot oracleApp) sheet)[j]? = sheet[j]? := by
  intro sel
  induction sel with
  | nil => intro sheet j _; rfl
  | cons a sel ih =>
    intro sheet j hno
    rw [List.foldl_cons, ih _ j (fun p hp => hno p (by simp [hp]))]
    exact appWriteStep_getElem_ne snapshot oracleApp sheet a j (hno a (by simp))

/-- C3 counterexample: the claim fails on the cited
`DecisionProcessor.generate_next_week_questions` (app.py lines 406-414).
Its `.notna()` conjuncts are vacuous on the string-typed frame, so a row with
an EMPTY 下週題型 is selected and written (first scenario); and because the
write-back targets the first row whose 詞語 matches, a row whose sentence
carries the AI marker and whose 下週題目 is already non-empty — unselected,
supposedly untouched — gets its question and answer cells overwritten when a
later row shares its word (second scenario). -/
theorem question_gen_app_empty_type_cex :
    selectGenApp ⟨"t", "A", "w", "s", "", "", "", ""⟩ = true ∧
    (⟨"t", "A", "w", "s", "", "", "", ""⟩ : ReviewRow).next_type = "" ∧
    generate_next_week_questions (fun _ => some ("q", "a"))
        [⟨"t", "A", "w", "s", "", "", "", ""⟩] =
      [⟨"t", "A", "w", "s", "", "🟨 q", "a", ""⟩] ∧
    selectGenApp ⟨"t", "A", "w", "🟨 s", "", "🟨 old", "x", ""⟩ = false ∧
    generate_next_week_questions (fun _ => some ("q", "a"))
        [⟨"t", "A", "w", "🟨 s", "", "🟨 old", "x", ""⟩,
         ⟨"t", "A", "w", "s2", "反義詞", "", "", ""⟩] =
      [⟨"t", "A", "w", "🟨 s", "", "🟨 q", "a", ""⟩,
       ⟨"t", "A", "w", "s2", "反義詞", "", "", ""⟩] := by
  exact ⟨by decide, rfl, by decide, by decide, by decide⟩

/-- C3 amended, split by implementation.  `Pipeline.generate_questions`
(pipeline.py) behaves as the claim states: a row with the marker in its
sentence, a non-empty 下週題目, or an empty 下週題型 is not selected and
nothing is written to it, and a second run on a row just filled is a no-op
for that row.  `DecisionProcessor.generate_next_week_questions` (app.py)
selects a row exactly when its 下週題目 is empty and its sentence lacks the
marker — an empty 下週題型 does not prevent selection — and it writes each
result into the first row of the snapshot whose 詞語 matches, so a row is
guaranteed untouched only when it is no selected row's first word match. -/
theorem question_gen_skip_by_impl (table : List ReviewRow)
    (oracle oracle2 : Nat → ReviewRow → Option (String × String)) (i : Nat) (r : ReviewRow)
    (hr : table[i]? = some r) :
    (strContains r.sentence AI_ICON = true ∨ r.next_question ≠ "" ∨ r.next_type = "" →
      (generate_questions oracle table).table[i]? = some r) ∧
    (∀ qa, selectGen r = true → oracle i r = some qa →
      (generate_questions oracle table).table[i]? = some (fillRow r qa) ∧
      (generate_questions oracle2 (generate_questions oracle table).table).table[i]? =
        some (fillRow r qa)) ∧
    (selectGenApp r = true ↔ (r.next_question = "" ∧ strContains r.sentence AI_ICON = false)) ∧
    (∀ (snapshot : List ReviewRow) (oracleApp : ReviewRow → Option (String × String))
        (j : Nat) (r2 : ReviewRow), snapshot[j]? = some r2 →
      (∀ p ∈ snapshot.filter selectGenApp, firstWordMatch snapshot p.word ≠ some j) →
      (generate_next_week_questions oracleApp snapshot)[j]? = some r2) := by
  refine ⟨(question_gen_skip_and_idempotent table oracle oracle2 i r hr).1,
    (question_gen_skip_and_idempotent table oracle oracle2 i r hr).2, ?_, ?_⟩
  · unfold selectGenApp notna isna
    simp only [Bool.true_and, Bool.false_or, Bool.and_eq_true, beq_iff_eq, Bool.not_eq_true']
  · intro snapshot oracleApp j r2 hj hno
    unfold generate_next_week_questions
    rw [app_fold_untouched snapshot oracleApp (snapshot.filter selectGenApp) snapshot j hno]
    exact hj

/-- C7 counterexample: with one selected row whose completion call fails, the
stage reports the per-item error and keeps going (the row stays unchanged),
but the only summary it surfaces is the single success-styled count 1 — which
includes the failed item — not a processed/skipped/failed breakdown. -/
theorem question_gen_summary_cex :
    (generate_questions (fun _ _ => none)
        [⟨"t", "A", "w", "s", "反義詞", "", "", ""⟩]).reported = 1 ∧
    (generate_questions (fun _ _ => none)
        [⟨"t", "A", "w", "s", "反義詞", "", "", ""⟩]).failures = [0] ∧
    (generate_questions (fun _ _ => none)
        [⟨"t", "A", "w", "s", "反義詞", "", "", ""⟩]).table =
      [⟨"t", "A", "w", "s", "反義詞", "", "", ""⟩] := by
  exact ⟨by decide, by decide, by decide⟩

/-- C7 amended: a failed completion call for one item yields a reported error
for exactly that item and leaves its row unchanged while every other selected
item is still processed (no batch abort); the single count surfaced at the end
equals the number of selected rows, failures included — the stage does not
surface separate processed/skipped/failed counts. -/
theorem question_gen_continue_and_count (table : List ReviewRow)
    (oracle : Nat → ReviewRow → Option (String × String)) :
    (generate_questions oracle table).reported = (table.filter selectGen).length ∧
    (∀ i r, table[i]? = some r → selectGen r = true → oracle i r = none →
      i ∈ (generate_questions oracle table).failures ∧
      (generate_questions oracle table).table[i]? = some r) ∧
    (∀ i r qa, table[i]? = some r → selectGen r = true → oracle i r = some qa →
      (generate_questions oracle table).table[i]? = some (fillRow r qa)) := by
  refine ⟨?_, ?_, ?_⟩
  · show (table.enum.filter (fun p => selectGen p.2)).length = _
    exact filter_enum_length selectGen table
  · intro i r hr hsel ho
    constructor
    · show i ∈ (table.enum.filter
        (fun p => selectGen p.2 && (oracle p.1 p.2).isNone)).map Prod.fst
      refine List.mem_map.mpr ⟨(i, r), ?_, rfl⟩
      refine List.mem_filter.mpr ⟨List.mk_mem_enum_iff_getElem?.mpr hr, ?_⟩
      simp [hsel, ho]
    · rw [generate_questions_table_getElem, hr]
      simp [hsel, ho]
  · intro i r qa hr hsel ho
    rw [generate_questions_table_getElem, hr]
    simp [hsel, ho]

/-! ### Import Stage (claims C4, C5 and C8) -/

/-- C4: a word with an exact-match entry in the reference table is never sent
to the completion service by the Import Stage, and every Review row built for
it carries the stored reference sentence verbatim. -/
theorem import_lookup_hit_no_ai_call (tm : List (String × String))
    (oracle : String → Except String String) (forms : List FormRow) (w s : String)
    (h : tmLookup tm w = some s) :
    w ∉ (importNewWords tm oracle forms).aiCalls ∧
    ∀ row ∈ (importNewWords tm oracle forms).newRows, row.word = w → row.sentence = s := by
  constructor
  · intro hmem
    have hmem' : w ∈ (pendingForms forms).flatMap (fun p => aiCallsForForm tm p.2) := hmem
    obtain ⟨p, _, hp⟩ := List.mem_flatMap.mp hmem'
    have hno := (List.mem_filter.mp hp).2
    rw [h] at hno
    cases hno
  · intro row hrow hword
    have hrow' : row ∈ (pendingForms forms).flatMap (fun p => rowsForForm tm oracle p.2) := hrow
    obtain ⟨p, _, hp⟩ := List.mem_flatMap.mp hrow'
    obtain ⟨w', hw', heq⟩ := List.mem_map.mp hp
    rw [← heq] at hword ⊢
    have hww : w' = w := hword
    show sentenceFor tm oracle w' = s
    rw [hww]
    unfold sentenceFor
    rw [h]

/-- C5 counterexample: the code never checks that the completion reply
contains the requested word.  With the reference table empty and the service
answering "hello" for the word "sad", the Import Stage stores the
marker-tagged sentence 🟨 hello, which does not contain "sad" — so the claim's
contains-the-word half fails while its marker half holds. -/
theorem import_synthesized_sentence_cex :
    tmLookup [] "sad" = none ∧
    (importNewWords [] (fun _ => Except.ok "hello") [⟨"t", "A", "sad", ""⟩]).newRows =
      [⟨"t", "A", "sad", "🟨 hello", "", "", "", ""⟩] ∧
    strContains "🟨 hello" "sad" = false ∧
    (∃ rest, ("🟨 hello" : String) = AI_ICON ++ rest) := by
  exact ⟨rfl, by decide, by decide, ⟨"hello", by decide⟩⟩

/-- C5 amended: for a word absent from the reference table the stored sentence
always begins with the AI marker sequence — also when the completion call
fails, via the marker-tagged error text — and it contains the exact word as a
substring whenever the (stripped) completion reply does; the code itself does
not enforce that containment. -/
theorem import_synthesized_sentence_marker (tm : List (String × String))
    (oracle : String → Except String String) (w : String) (h : tmLookup tm w = none) :
    (∃ rest, sentenceFor tm oracle w = AI_ICON ++ rest) ∧
    (∀ resp, oracle w = Except.ok resp → occursIn w.data (pyStrip resp).data = true →
      strContains (sentenceFor tm oracle w) w = true) := by
  constructor
  · unfold sentenceFor
    rw [h]
    unfold generate_sentence_by_ai
    cases ho : oracle w with
    | ok resp => exact ⟨pyStrip resp, rfl⟩
    | error e => exact ⟨"AI Error: " ++ e, (String.append_assoc AI_ICON "AI Error: " e).symm⟩
  · intro resp ho hocc
    unfold sentenceFor
    rw [h]
    unfold generate_sentence_by_ai
    rw [ho]
    unfold strContains
    rw [String.data_append]
    exact occursIn_append_left _ hocc

theorem importNewWords_trace_eq (tm : List (String × String))
    (oracle : String → Except String String) (forms : List FormRow) :
    (importNewWords tm oracle forms).trace =
      (if ((pendingForms forms).flatMap (fun p => rowsForForm tm oracle p.2)).isEmpty then []
       else GatewayOp.appendReview
          ((pendingForms forms).flatMap (fun p => rowsForForm tm oracle p.2)) ::
         (pendingForms forms).map (fun p => GatewayOp.markDone (p.1 + 2))) := rfl

/-- C8: in the gateway-operation sequence of one Import Stage run, every
status-flip of an intake row is preceded by the append of the new Review rows
(append-then-mark ordering): whenever position k of the trace is a markDone,
some earlier position is the appendReview. -/
theorem import_append_then_mark (tm : List (String × String))
    (oracle : String → Except String String) (forms : List FormRow) (k n : Nat)
    (h : (importNewWords tm oracle forms).trace[k]? = some (GatewayOp.markDone n)) :
    ∃ j rows, j < k ∧
      (importNewWords tm oracle forms).trace[j]? = some (GatewayOp.appendReview rows) := by
  rw [importNewWords_trace_eq] at h
  split at h
  · simp at h
  · rename_i hcond
    cases k with
    | zero => simp at h
    | succ k =>
      refine ⟨0, (pendingForms forms).flatMap (fun p => rowsForForm tm oracle p.2),
        Nat.succ_pos k, ?_⟩
      rw [importNewWords_trace_eq, if_neg hcond]
      simp

/-! ### Promotion clears rows in place (claim C10) -/

theorem foldl_clear_length : ∀ (ids : List Nat) (t : List ReviewRow),
    (ids.foldl clear_rows t).length = t.length := by
  intro ids
  induction ids with
  | nil => intro t; rfl
  | cons i ids ih =>
    intro t
    rw [List.foldl_cons, ih]
    simp [clear_rows]

theorem foldl_clear_not_mem : ∀ (ids : List Nat), (∀ i ∈ ids, 2 ≤ i) →
    ∀ (t : List ReviewRow) (j : Nat), (j + 2) ∉ ids →
    (ids.foldl clear_rows t)[j]? = t[j]? := by
  intro ids
  induction ids with
  | nil => intro _ t j _; rfl
  | cons i ids ih =>
    intro hge t j hnot
    simp only [List.mem_cons, not_or] at hnot
    rw [List.foldl_cons, ih (fun x hx => hge x (by simp [hx])) _ j hnot.2]
    have h2 : 2 ≤ i := hge i (by simp)
    have hne : i - 2 ≠ j := by
      have := hnot.1
      omega
    unfold clear_rows
    rw [List.getElem?_set_ne hne]

theorem foldl_clear_mem : ∀ (ids : List Nat), (∀ i ∈ ids, 2 ≤ i) →
    ∀ (t : List ReviewRow) (j : Nat), j < t.length → (j + 2) ∈ ids →
    (ids.foldl clear_rows t)[j]? = some blankRow := by
  intro ids
  induction ids with
  | nil => intro _ t j _ hmem; cases hmem
  | cons i ids ih =>
    intro hge t j hj hmem
    rw [List.foldl_cons]
    by_cases hmem2 : (j + 2) ∈ ids
    · exact ih (fun x hx => hge x (by simp [hx])) _ j (by simp [clear_rows, hj]) hmem2
    · have hi : i = j + 2 := by
        rcases List.mem_cons.mp hmem with he | he
        · exact he.symm
        · exact absurd he hmem2
      rw [foldl_clear_not_mem ids (fun x hx => hge x (by simp [hx])) _ j hmem2]
      unfold clear_rows
      rw [hi]
      have he2 : j + 2 - 2 = j := by omega
      rw [he2]
      exact List.getElem?_set_self hj

theorem mem_rowsToClear {review : List ReviewRow} {j : Nat} :
    (j + 2) ∈ rowsToClearPipeline review ↔
      ∃ r, review[j]? = some r ∧ selectPipeline r = true := by
  unfold rowsToClearPipeline toMovePipeline
  constructor
  · intro hmem
    obtain ⟨⟨i, r⟩, hp, he⟩ := List.mem_map.mp hmem
    have hij : i = j := by omega
    obtain ⟨henum, hsel⟩ := List.mem_filter.mp hp
    refine ⟨r, ?_, hsel⟩
    rw [← hij]
    exact List.mk_mem_enum_iff_getElem?.mp henum
  · rintro ⟨r, hr, hsel⟩
    exact List.mem_map.mpr ⟨(j, r),
      List.mem_filter.mpr ⟨List.mk_mem_enum_iff_getElem?.mpr hr, hsel⟩, rfl⟩

theorem rowsToClear_ge_two (review : List ReviewRow) :
    ∀ i ∈ rowsToClearPipeline review, 2 ≤ i := by
  intro i hi
  obtain ⟨p, _, he⟩ := List.mem_map.mp hi
  omega

/-- C10: the Promotion Stage removes its source rows by blanking the selected
rows' cells in place — the Review table keeps its length, every unselected row
keeps its index and its contents unchanged, and every selected row remains
present as an all-blank row. -/
theorem promotion_clears_in_place (review : List ReviewRow) :
    (reviewAfterPipeline review).length = review.length ∧
    (∀ (j : Nat) (r : ReviewRow), review[j]? = some r → selectPipeline r = false →
      (reviewAfterPipeline review)[j]? = some r) ∧
    (∀ (j : Nat) (r : ReviewRow), review[j]? = some r → selectPipeline r = true →
      (reviewAfterPipeline review)[j]? = some blankRow) := by
  unfold reviewAfterPipeline
  refine ⟨foldl_clear_length _ review, ?_, ?_⟩
  · intro j r hr hsel
    have hnot : (j + 2) ∉ rowsToClearPipeline review := by
      intro hmem
      obtain ⟨r', hr', hsel'⟩ := mem_rowsToClear.mp hmem
      rw [hr] at hr'
      injection hr' with hrr
      rw [← hrr] at hsel'
      rw [hsel] at hsel'
      cases hsel'
    rw [foldl_clear_not_mem _ (rowsToClear_ge_two review) review j hnot]
    exact hr
  · intro j r hr hsel
    have hj : j < review.length := by
      rw [List.getElem?_eq_some_iff] at hr
      exact hr.1
    exact foldl_clear_mem _ (rowsToClear_ge_two review) review j hj
      ((@mem_rowsToClear review j).mpr ⟨r, hr, hsel⟩)

/-! ### Concrete witnesses -/

/-- Witness for the promotion eligibility characterization at a concrete
accepted row. -/
theorem promotion_eligibility_witness :
    selectApp ⟨"t", "A", "w", "s", "", "", "", "保留"⟩ = true :=
  (promotion_eligibility_characterization ⟨"t", "A", "w", "s", "", "", "", "保留"⟩).1.mpr
    (by decide)

/-- Witness for the promotion emission shape on the one-row table of the
spec's promotion scenario. -/
theorem promotion_emission_witness :
    ((0, (⟨"t", "A", "run", "I run fast.", "", "", "", ""⟩ : ReviewRow)) ∈
      toMovePipeline [⟨"t", "A", "run", "I run fast.", "", "", "", ""⟩]) ∧
    (⟨"t", "A", "run", "I run fast.", "", "", "", ""⟩ : ReviewRow).school ≠ "" :=
  ⟨by decide,
    (promotion_emission (fun _ => 0) "d" [⟨"t", "A", "run", "I run fast.", "", "", "", ""⟩] 0
      ⟨"t", "A", "run", "I run fast.", "", "", "", ""⟩ (by decide)).1⟩

/-- Witness for the ascending clear order on a concrete two-row table. -/
theorem clear_order_ascending_witness :
    (rowsToClearPipeline
      [⟨"t", "A", "w", "s", "", "", "", ""⟩, ⟨"t", "B", "x", "y", "", "", "", ""⟩]).Pairwise
      (fun a b => a < b) :=
  clear_order_ascending [⟨"t", "A", "w", "s", "", "", "", ""⟩, ⟨"t", "B", "x", "y", "", "", "", ""⟩]

/-- Witness for id distinctness on a concrete one-row table. -/
theorem standby_ids_distinct_witness :
    ((standbyRowsPipeline (fun _ => 7) "d" [⟨"t", "A", "w", "s", "", "", "", ""⟩]).map
      StandbyRow.id).Nodup :=
  (standby_ids_distinct (fun _ => 7) "d" [⟨"t", "A", "w", "s", "", "", "", ""⟩]).1

/-- Witness for the per-implementation generation behaviour at the spec's
antonym scenario: the pipeline run fills the row on the first pass, and the
same row also satisfies the app-side selection characterization. -/
theorem question_gen_skip_by_impl_witness :
    (([(⟨"t", "A", "big", "I am big.", "反義詞", "", "", ""⟩ : ReviewRow)])[0]? =
      some (⟨"t", "A", "big", "I am big.", "反義詞", "", "", ""⟩ : ReviewRow)) ∧
    (generate_questions (fun _ _ => some ("q", "a"))
        [⟨"t", "A", "big", "I am big.", "反義詞", "", "", ""⟩]).table[0]? =
      some (fillRow ⟨"t", "A", "big", "I am big.", "反義詞", "", "", ""⟩ ("q", "a")) ∧
    selectGenApp ⟨"t", "A", "big", "I am big.", "反義詞", "", "", ""⟩ = true :=
  ⟨by decide,
    ((question_gen_skip_by_impl [⟨"t", "A", "big", "I am big.", "反義詞", "", "", ""⟩]
        (fun _ _ => some ("q", "a")) (fun _ _ => some ("q", "a")) 0
        ⟨"t", "A", "big", "I am big.", "反義詞", "", "", ""⟩ (by decide)).2.1
      ("q", "a") (by decide) rfl).1,
    (question_gen_skip_by_impl [⟨"t", "A", "big", "I am big.", "反義詞", "", "", ""⟩]
        (fun _ _ => some ("q", "a")) (fun _ _ => some ("q", "a")) 0
        ⟨"t", "A", "big", "I am big.", "反義詞", "", "", ""⟩ (by decide)).2.2.1.mpr
      (by decide)⟩

/-- Witness for the per-item failure handling of the Question-Generation
Stage at a concrete failing row. -/
theorem question_gen_count_witness :
    (([(⟨"t", "A", "w", "s", "反義詞", "", "", ""⟩ : ReviewRow)])[0]? =
      some (⟨"t", "A", "w", "s", "反義詞", "", "", ""⟩ : ReviewRow)) ∧
    0 ∈ (generate_questions (fun _ _ => none)
      [(⟨"t", "A", "w", "s", "反義詞", "", "", ""⟩ : ReviewRow)]).failures :=
  ⟨by decide,
    ((question_gen_continue_and_count [⟨"t", "A", "w", "s", "反義詞", "", "", ""⟩]
        (fun _ _ => none)).2.1 0 ⟨"t", "A", "w", "s", "反義詞", "", "", ""⟩
      (by decide) (by decide) rfl).1⟩

/-- Witness for the lookup-hit property at the spec's happy/sad scenario. -/
theorem import_lookup_hit_witness :
    tmLookup [("happy", "I am happy today.")] "happy" = some "I am happy today." ∧
    "happy" ∉ (importNewWords [("happy", "I am happy today.")] (fun _ => Except.ok "x")
      [⟨"t", "A", "happy, sad", ""⟩]).aiCalls :=
  ⟨by decide,
    (import_lookup_hit_no_ai_call [("happy", "I am happy today.")] (fun _ => Except.ok "x")
      [⟨"t", "A", "happy, sad", ""⟩] "happy" "I am happy today." (by decide)).1⟩

/-- Witness for the marker and containment property at a concrete lookup
miss whose reply does contain the word. -/
theorem import_synthesized_sentence_witness :
    tmLookup [] "sad" = none ∧
    (∃ rest, sentenceFor [] (fun _ => Except.ok "A sad day.") "sad" = AI_ICON ++ rest) ∧
    strContains (sentenceFor [] (fun _ => Except.ok "A sad day.") "sad") "sad" = true :=
  ⟨rfl,
    (import_synthesized_sentence_marker [] (fun _ => Except.ok "A sad day.") "sad" rfl).1,
    (import_synthesized_sentence_marker [] (fun _ => Except.ok "A sad day.") "sad" rfl).2
      "A sad day." rfl (by decide)⟩

/-- Witness for append-then-mark ordering on a concrete one-Submission run. -/
theorem import_append_then_mark_witness :
    ((importNewWords [] (fun _ => Except.ok "x") [⟨"t", "A", "w", ""⟩]).trace[1]? =
      some (GatewayOp.markDone 2)) ∧
    ∃ j rows, j < 1 ∧
      (importNewWords [] (fun _ => Except.ok "x") [⟨"t", "A", "w", ""⟩]).trace[j]? =
        some (GatewayOp.appendReview rows) :=
  ⟨by decide,
    import_append_then_mark [] (fun _ => Except.ok "x") [⟨"t", "A", "w", ""⟩] 1 2 (by decide)⟩

/-- Witness for in-place clearing on a concrete table with one selected and
one unselected row. -/
theorem promotion_clears_witness :
    (reviewAfterPipeline [(⟨"t", "A", "w", "s", "", "", "", ""⟩ : ReviewRow),
      ⟨"t", "", "", "", "", "", "", ""⟩])[0]? = some blankRow ∧
    (reviewAfterPipeline [(⟨"t", "A", "w", "s", "", "", "", ""⟩ : ReviewRow),
      ⟨"t", "", "", "", "", "", "", ""⟩])[1]? = some ⟨"t", "", "", "", "", "", "", ""⟩ :=
  ⟨(promotion_clears_in_place [⟨"t", "A", "w", "s", "", "", "", ""⟩,
      ⟨"t", "", "", "", "", "", "", ""⟩]).2.2 0 ⟨"t", "A", "w", "s", "", "", "", ""⟩
      (by decide) (by decide),
   (promotion_clears_in_place [⟨"t", "A", "w", "s", "", "", "", ""⟩,
      ⟨"t", "", "", "", "", "", "", ""⟩]).2.1 1 ⟨"t", "", "", "", "", "", "", ""⟩
      (by decide) (by decide)⟩

end JJWS
